import Mathlib

/-!
Verification of the message retrieval and persistence subsystem of the
chatluna-group-analysis plugin (`MessageService`, `AnalysisService`).

The definitions below are a shallow embedding of the TypeScript source:
timestamps are modelled as `Int` milliseconds since the epoch, JavaScript
optional/`undefined` values as `Option`, JavaScript string truthiness
(`undefined`/`null`/`""` are falsy) via `optTruthy`, thrown exceptions as
`Except Unit`, and the live platform backends as oracles indexed by the
call number (so one model covers every possible backend behaviour,
including throwing mid-loop and never-ending page streams).  The paging
`while` loops of the source are modelled with explicit fuel: `fuelOut`
means the loop was still running when the fuel ran out.
-/

/-- JavaScript truthiness of an optional string: `undefined`/`null` and the
empty string are falsy. -/
def optTruthy : Option String → Bool
  | none => false
  | some s => !s.isEmpty

/-- JavaScript `a || b` on optional strings, collapsing a falsy result to
`none` (observationally equivalent: a falsy result is only ever used
through truthiness tests or string interpolation of a present value). -/
def jsOr (a b : Option String) : Option String :=
  if optTruthy a then a else if optTruthy b then b else none

/-- JavaScript `a ?? b` (nullish coalescing) on optional strings: only
`undefined`/`null` falls through, an empty string is kept. -/
def jsNullish (a b : Option String) : Option String :=
  match a with
  | some x => some x
  | none => b

/-- JavaScript `a || d` where `d` is a plain default string. -/
def jsOrS (a : Option String) (d : String) : String :=
  match a with
  | some s => if s.isEmpty then d else s
  | none => d

/-- Whether `small` occurs at the head of `big` (character lists). -/
def leadMatch : List Char → List Char → Bool
  | [], _ => true
  | _ :: _, [] => false
  | c :: cs, d :: ds => c == d && leadMatch cs ds

/-- Whether `small` occurs contiguously anywhere in `big`. -/
def containsSeq (small big : List Char) : Bool :=
  match big with
  | [] => small.isEmpty
  | _ :: t => leadMatch small big || containsSeq small t

/-- JavaScript `s.includes(w)` substring test. -/
def strContains (s w : String) : Bool := containsSeq w.toList s.toList

/-- `getAvatarUrl` from utils: QQ avatar URL for a user id. -/
def getAvatarUrl (userId : String) : String :=
  "http://q1.qlogo.cn/g?b=qq&nk=" ++ userId ++ "&s=640"

/-- `buildPersonaRecordId` from utils: composite persona record key. -/
def buildPersonaRecordId (platform selfId userId : String) : String :=
  platform ++ ":" ++ selfId ++ ":" ++ userId

/-- The purpose tag of a history query (`filter.purpose`). -/
inductive Purpose where
  | groupAnalysis
  | userPersona
deriving DecidableEq, Repr

/-- `MessageFilter` from types.ts (timestamps in ms). -/
structure MessageFilter where
  guildId : Option String := none
  channelId : Option String := none
  userId : Option (List String) := none
  selfId : Option String := none
  startTime : Option Int := none
  endTime : Option Int := none
  limit : Option Nat := none
  offset : Option Nat := none
  purpose : Option Purpose := none
deriving DecidableEq, Repr

/-- `StoredMessage` from types.ts (timestamp in ms; rich-content
`elements` are derived rendering data and are not modelled). -/
structure StoredMessage where
  id : String
  platform : String
  selfId : String
  channelId : Option String
  guildId : Option String
  userId : String
  username : String
  content : String
  avatarUrl : String
  timestamp : Int
  messageId : Option String
deriving DecidableEq, Repr

/-- The configuration fields the message subsystem reads. -/
structure Config where
  wordsFilter : List String := []
  userFilter : List String := []
  personaUserFilter : List String := []
  alwaysPersistMessages : Bool := false
  personaAnalysisMessageInterval : Nat := 0
deriving DecidableEq, Repr

/-- Purpose-based exclusion applied on the live paging paths: the
group-analysis purpose drops users in `config.userFilter`, the
user-persona purpose drops users in `config.personaUserFilter`. -/
def purposePass (cfg : Config) (filter : MessageFilter) (uid : String) : Bool :=
  match filter.purpose with
  | some .groupAnalysis => !(cfg.userFilter.contains uid)
  | some .userPersona => !(cfg.personaUserFilter.contains uid)
  | none => true

/-- `filter.limit || 100` (JavaScript `||`: a zero limit falls back to the
default of 100). -/
def botEffLimit (filter : MessageFilter) : Nat :=
  match filter.limit with
  | some n => if n == 0 then 100 else n
  | none => 100

/-- `filter.startTime || new Date(Date.now() - 24*60*60*1000)`. -/
def defaultStartTime (filter : MessageFilter) (now : Int) : Int :=
  match filter.startTime with
  | some t => t
  | none => now - 86400000

/-- `filter.endTime || new Date()`. -/
def defaultEndTime (filter : MessageFilter) (now : Int) : Int :=
  match filter.endTime with
  | some t => t
  | none => now

/-- One raw message of a `bot.getMessageList` page, after the fields the
source reads have been resolved (`createdAt ?? timestamp` is one field). -/
structure BotAPIMsg where
  id : String
  userId : String
  username : String
  content : String
  createdAt : Int
  guildId : Option String := none
  avatar : Option String := none
deriving DecidableEq, Repr

/-- One page returned by `bot.getMessageList(targetId, nextId, 'before')`. -/
structure BotPage where
  data : List BotAPIMsg
  prev : Option String := none
deriving DecidableEq, Repr

/-- The batch mapping inside `getBotAPIHistoricalMessages`. -/
def toStoredBotAPI (platform selfId targetId : String) (filter : MessageFilter)
    (m : BotAPIMsg) : StoredMessage :=
  { id := platform ++ "_" ++ selfId ++ "_" ++ targetId ++ "_" ++ m.id
    platform := platform
    selfId := selfId
    channelId := filter.channelId
    guildId := jsNullish m.guildId filter.guildId
    userId := m.userId
    username := m.username
    content := m.content
    avatarUrl := jsOrS m.avatar ""
    timestamp := m.createdAt
    messageId := some m.id }

/-- The per-page validity filter of `getBotAPIHistoricalMessages`:
time-window containment, user-set membership, filtered-word rejection and
purpose-based exclusion. -/
def botAPIValid (cfg : Config) (filter : MessageFilter) (startTime endTime : Int)
    (m : StoredMessage) : Bool :=
  (decide (startTime ≤ m.timestamp) && decide (m.timestamp ≤ endTime))
    && (match filter.userId with
        | none => true
        | some us => decide (us.length < 1) || us.contains m.userId)
    && !(cfg.wordsFilter.any (fun w => strContains m.content w))
    && purposePass cfg filter m.userId

/-- Loop state of `getBotAPIHistoricalMessages`. -/
structure BotState where
  allMessages : List StoredMessage
  fetchedCount : Nat
  queryRounds : Nat
  nextId : Option String
  callIdx : Nat
deriving DecidableEq, Repr

/-- Outcome of a fuel-bounded paging loop: `done` is a normal exit through
one of the loop's stop conditions, `thrown` an exception escaping the
loop body, `fuelOut` a loop still running after `fuel` rounds. -/
inductive FetchOut (σ α : Type) where
  | done (r : α)
  | thrown
  | fuelOut (st : σ)
deriving DecidableEq, Repr

/-- Whether the loop was still running when the fuel ran out. -/
def FetchOut.stillRunning {σ α : Type} : FetchOut σ α → Bool
  | .fuelOut _ => true
  | _ => false

/-- The rounds counter of a loop that was still running, if any. -/
def FetchOut.runningRounds {α : Type} : FetchOut BotState α → Option Nat
  | .fuelOut st => some st.queryRounds
  | _ => none

/-- The `while (fetchedCount < limit)` loop of
`getBotAPIHistoricalMessages`.  `backend i cursor` is the platform's
response to the `i`-th `bot.getMessageList(targetId, cursor, 'before')`
call; `.error` models a thrown exception. -/
def botAPIRun (cfg : Config) (filter : MessageFilter)
    (platform selfId targetId : String) (limit : Nat) (startTime endTime : Int)
    (backend : Nat → Option String → Except Unit BotPage) :
    Nat → BotState → FetchOut BotState (List StoredMessage)
  | 0, st => .fuelOut st
  | Nat.succ fuel, st =>
    if st.fetchedCount < limit then
      match backend st.callIdx st.nextId with
      | .error _ => .thrown
      | .ok page =>
        match page.data with
        | [] => .done (st.allMessages.take limit)
        | d0 :: ds =>
          let batch := (d0 :: ds).map (toStoredBotAPI platform selfId targetId filter)
          let validMessages := batch.filter (botAPIValid cfg filter startTime endTime)
          let allMessages := validMessages ++ st.allMessages
          let fetchedCount := st.fetchedCount + validMessages.length
          let oldestMsg := toStoredBotAPI platform selfId targetId filter d0
          if oldestMsg.timestamp < startTime then .done (allMessages.take limit)
          else
            let nextId := jsOr page.prev oldestMsg.messageId
            if limit ≤ fetchedCount ∨ optTruthy nextId = false then
              .done (allMessages.take limit)
            else
              botAPIRun cfg filter platform selfId targetId limit startTime endTime backend
                fuel
                { allMessages := allMessages
                  fetchedCount := fetchedCount
                  queryRounds := st.queryRounds + 1
                  nextId := nextId
                  callIdx := st.callIdx + 1 }
    else .done (st.allMessages.take limit)

/-- `getBotAPIHistoricalMessages`: resolve the target, run the paging
loop, and catch any exception by returning `[]`.  The result is `none`
only when the fuel bound was hit while the loop was still running (the
real loop would still be iterating). -/
def getBotAPIHistoricalMessages (cfg : Config) (filter : MessageFilter)
    (platform selfId : String)
    (backend : Nat → Option String → Except Unit BotPage)
    (now : Int) (fuel : Nat) : Option (List StoredMessage) :=
  match jsOr filter.channelId filter.guildId with
  | none => some []
  | some targetId =>
    match botAPIRun cfg filter platform selfId targetId (botEffLimit filter)
        (defaultStartTime filter now) (defaultEndTime filter now) backend fuel
        ⟨[], 0, 0, none, 0⟩ with
    | .done msgs => some msgs
    | .thrown => some []
    | .fuelOut _ => none

/-- One raw message of a `get_group_msg_history` response (`time` in
seconds, as on the wire; `user_id` after `String(...)` conversion). -/
structure OneBotMsg where
  message_id : Int
  time : Int
  message_seq : Int
  user_id : String
  nickname : String
  raw_message : String
deriving DecidableEq, Repr

/-- The per-page validity filter of `getOneBotHistoricalMessages`. -/
def oneBotValid (cfg : Config) (filter : MessageFilter) (startTime endTime : Int)
    (m : OneBotMsg) : Bool :=
  (decide (startTime ≤ m.time * 1000) && decide (m.time * 1000 ≤ endTime))
    && (match filter.userId with
        | none => true
        | some us => decide (us.length < 1) || us.contains m.user_id)
    && !(cfg.wordsFilter.any (fun w => strContains m.raw_message w))
    && purposePass cfg filter m.user_id

/-- Loop state of `getOneBotHistoricalMessages`. -/
structure OneState where
  messages : List OneBotMsg
  fetchedCount : Nat
  queryRounds : Nat
  messageSeq : Int
  oldest : Option OneBotMsg
  callIdx : Nat
deriving DecidableEq, Repr

/-- The `while (fetchedCount < limit)` loop of
`getOneBotHistoricalMessages`.  `backend i seq` is the response to the
`i`-th `get_group_msg_history` request with `message_seq = seq` (the
page-size/`reverseOrder` request fields only influence the backend's
reply and are absorbed into the oracle); on the Lagrange variant the page
is reversed before processing, exactly as in the source. -/
def oneBotRun (cfg : Config) (filter : MessageFilter) (isLagrange : Bool)
    (limit : Nat) (startTime endTime : Int)
    (backend : Nat → Int → Except Unit (List OneBotMsg)) :
    Nat → OneState → FetchOut OneState (List OneBotMsg)
  | 0, st => .fuelOut st
  | Nat.succ fuel, st =>
    if st.fetchedCount < limit then
      match backend st.callIdx st.messageSeq with
      | .error _ => .thrown
      | .ok pageMsgs =>
        match pageMsgs with
        | [] => .done st.messages
        | m0 :: ms =>
          let batch := if isLagrange then (m0 :: ms).reverse else m0 :: ms
          let validMessages := batch.filter (oneBotValid cfg filter startTime endTime)
          let messages := validMessages ++ st.messages
          let fetchedCount := st.fetchedCount + validMessages.length
          let b0 := batch.headD m0
          if (decide (b0.time * 1000 < startTime)
                || (match st.oldest with
                    | some o => b0.time == o.time
                    | none => false)
                || batch.length == 0) = true then
            .done messages
          else
            oneBotRun cfg filter isLagrange limit startTime endTime backend fuel
              { messages := messages
                fetchedCount := fetchedCount
                queryRounds := st.queryRounds + 1
                messageSeq := b0.message_seq
                oldest := some b0
                callIdx := st.callIdx + 1 }
    else .done st.messages

/-- The final conversion of accumulated raw OneBot messages to
`StoredMessage` (no truncation to `limit` is applied here). -/
def oneBotToStored (selfId targetId : String) (filter : MessageFilter)
    (m : OneBotMsg) : StoredMessage :=
  { id := "onebot_" ++ toString m.message_id
    platform := "onebot"
    selfId := selfId
    channelId := some targetId
    guildId := filter.guildId
    userId := m.user_id
    username := m.nickname
    content := m.raw_message
    avatarUrl := getAvatarUrl m.user_id
    timestamp := m.time * 1000
    messageId := some (toString m.message_id) }

/-- `getOneBotHistoricalMessages`: resolve the target group, run the
legacy paging loop, convert the accumulated messages, and catch any
exception by returning `[]`. -/
def getOneBotHistoricalMessages (cfg : Config) (filter : MessageFilter)
    (botSelfId : String) (isLagrange : Bool)
    (backend : Nat → Int → Except Unit (List OneBotMsg))
    (now : Int) (fuel : Nat) : Option (List StoredMessage) :=
  match jsOr filter.guildId filter.channelId with
  | none => some []
  | some targetId =>
    match oneBotRun cfg filter isLagrange (botEffLimit filter)
        (defaultStartTime filter now) (defaultEndTime filter now) backend fuel
        ⟨[], 0, 0, 0, none, 0⟩ with
    | .done raw => some (raw.map (oneBotToStored botSelfId targetId filter))
    | .thrown => some []
    | .fuelOut _ => none

/-- The `userId` clause of the durable-store query: `$in` requires
membership, `$nin` requires non-membership. -/
inductive UserIdClause where
  | inList (us : List String)
  | ninList (us : List String)
deriving DecidableEq, Repr

/-- The `query.userId` clause built by `getDatabaseHistoricalMessages`,
including the purpose-based rewriting.  Note that the `user-persona`
branch filters an explicit `filter.userId` list against
`config.userFilter` (exactly as the source does). -/
def dbUserIdClause (cfg : Config) (filter : MessageFilter) : Option UserIdClause :=
  let base : Option UserIdClause := filter.userId.map .inList
  match filter.purpose with
  | some .groupAnalysis =>
    if cfg.userFilter.isEmpty then base
    else some (match filter.userId with
      | some us => .inList (us.filter (fun u => !(cfg.userFilter.contains u)))
      | none => .ninList cfg.userFilter)
  | some .userPersona =>
    if cfg.personaUserFilter.isEmpty then base
    else some (match filter.userId with
      | some us => .inList (us.filter (fun u => !(cfg.userFilter.contains u)))
      | none => .ninList cfg.personaUserFilter)
  | none => base

/-- Whether a durable-store row matches the query built by
`getDatabaseHistoricalMessages`. -/
def dbRowMatches (cfg : Config) (filter : MessageFilter) (row : StoredMessage) : Bool :=
  (if optTruthy filter.guildId then row.guildId == filter.guildId else true)
    && (if optTruthy filter.channelId then row.channelId == filter.channelId else true)
    && (match dbUserIdClause cfg filter with
        | none => true
        | some (.inList us) => us.contains row.userId
        | some (.ninList us) => !(us.contains row.userId))
    && (match filter.startTime with
        | some s => decide (s ≤ row.timestamp)
        | none => true)
    && (match filter.endTime with
        | some e => decide (row.timestamp ≤ e)
        | none => true)

/-- The durable-store sort order: descending timestamp (`orderBy
timestamp desc`). -/
def tsDesc (a b : StoredMessage) : Prop := b.timestamp ≤ a.timestamp

instance : DecidableRel tsDesc := fun a b => Int.decLe b.timestamp a.timestamp

instance : IsTotal StoredMessage tsDesc :=
  ⟨fun a b => le_total b.timestamp a.timestamp⟩

instance : IsTrans StoredMessage tsDesc :=
  ⟨fun _ _ _ hab hbc => le_trans hbc hab⟩

/-- `getDatabaseHistoricalMessages` over a modelled table content `rows`:
filter by the built query, order by timestamp descending, then apply
`offset` and `limit` (defaults 0 and 100). -/
def getDatabaseHistoricalMessages (cfg : Config) (filter : MessageFilter)
    (rows : List StoredMessage) : List StoredMessage :=
  (((rows.filter (dbRowMatches cfg filter)).insertionSort tsDesc).drop
      (filter.offset.getD 0)).take (filter.limit.getD 100)

/-- The fields of a live `Session` event the message subsystem reads
(`timestamp` in seconds, as delivered by the platform). -/
structure SessionM where
  platform : String
  selfId : String
  channelId : Option String := none
  guildId : Option String := none
  userId : Option String := none
  username : String := ""
  content : String := ""
  timestamp : Int := 0
  messageId : Option String := none
  avatar : Option String := none
deriving DecidableEq, Repr

/-- JavaScript template interpolation of a possibly-undefined string. -/
def optStr : Option String → String
  | some s => s
  | none => "undefined"

/-- The synthetic primary id built by `handleMessage`: when a (truthy)
native message id is present the id is `platform_messageId`; otherwise it
is `platform_selfId_channelId_now_randomSuffix`. -/
def uniqueId (s : SessionM) (nowMs : Int) (rand : String) : String :=
  if optTruthy s.messageId then
    s.platform ++ "_" ++ s.messageId.getD ""
  else
    s.platform ++ "_" ++ s.selfId ++ "_" ++ optStr s.channelId ++ "_"
      ++ toString nowMs ++ "_" ++ rand

/-- The `StoredMessage` assembled by `handleMessage` from a live session
(`nowMs` is `Date.now()`, `rand` the random suffix — both used only on
the no-native-id branch of `uniqueId`). -/
def handleMessageStored (s : SessionM) (nowMs : Int) (rand : String) : StoredMessage :=
  { id := uniqueId s nowMs rand
    platform := s.platform
    selfId := s.selfId
    channelId := some (jsOrS s.channelId "0")
    guildId := some (jsOrS s.guildId "0")
    userId := s.userId.getD ""
    username := s.username
    content := s.content
    avatarUrl := jsOrS s.avatar ""
    timestamp := s.timestamp * 1000
    messageId := s.messageId }

/-- Durable-store upsert of one row: replace the row with the same
primary id when present, append otherwise. -/
def upsertOne (rows : List StoredMessage) (m : StoredMessage) : List StoredMessage :=
  if rows.any (fun r => r.id == m.id) then
    rows.map (fun r => if r.id == m.id then m else r)
  else rows ++ [m]

/-- `database.upsert('chatluna_messages', batch)`: upsert each row of the
batch into the table, keyed by the primary id. -/
def upsertRows (rows : List StoredMessage) (batch : List StoredMessage) : List StoredMessage :=
  batch.foldl upsertOne rows

/-- `onUserMessage`: registration appends the handler to the list. -/
def onUserMessage {α : Type} (handlers : List α) (h : α) : List α :=
  handlers ++ [h]

/-- The handler-notification loop at the end of `handleMessage`: each
registered handler is invoked in order inside its own `try`/`catch`; a
thrown error is logged (recorded in the returned list) and the loop
continues.  The outer `Except` is the exception channel of
`handleMessage` itself. -/
def notifyMessageHandlers (handlers : List (SessionM → Except String Unit))
    (s : SessionM) : Except String (List (Except String Unit)) :=
  match handlers with
  | [] => .ok []
  | h :: rest =>
    let r := h s
    (notifyMessageHandlers rest s).map (fun rs => r :: rs)

/-- `ActivityStats` from types.ts. -/
structure ActivityStats where
  windowStart : Int
  count : Nat
deriving DecidableEq, Repr

/-- `PersistenceBuffer` from types.ts. -/
structure PersistenceBuffer where
  messages : List StoredMessage
  lastMessageAt : Int
deriving DecidableEq, Repr

/-- Remove every binding of `k` from an association list. -/
def eraseKey {α : Type} (k : String) (l : List (String × α)) : List (String × α) :=
  l.filter (fun p => !(p.1 == k))

/-- `Map.set`: bind `k` to `v`, dropping any previous binding. -/
def putKey {α : Type} (k : String) (v : α) (l : List (String × α)) : List (String × α) :=
  (k, v) :: eraseKey k l

/-- `Map.get`: the value bound to `k`, if any. -/
def lookupKey {α : Type} (k : String) : List (String × α) → Option α
  | [] => none
  | p :: t => if p.1 == k then some p.2 else lookupKey k t

/-- The in-memory maps of the adaptive persistence path. -/
structure PersistState where
  activityStats : List (String × ActivityStats)
  persistenceBuffers : List (String × PersistenceBuffer)
deriving DecidableEq, Repr

/-- `getPersistenceKey`: `platform_selfId_scope` where the scope is
`guildId || channelId || 'global'`. -/
def getPersistenceKey (m : StoredMessage) : String :=
  m.platform ++ "_" ++ m.selfId ++ "_" ++ jsOrS m.guildId (jsOrS m.channelId "global")

/-- `getActivityStats`: the scope's current window, reset to a fresh
zero-count window when absent or when more than 60s (the activity
window) have elapsed since `windowStart`. -/
def getActivityStats (st : PersistState) (key : String) (tsMs : Int) : ActivityStats :=
  match lookupKey key st.activityStats with
  | some s => if tsMs - s.windowStart > 60000 then ⟨tsMs, 0⟩ else s
  | none => ⟨tsMs, 0⟩

/-- `flushPendingBuffer`: hand the scope's buffered messages to the
durable-store write as one batch (the returned write list) and drop the
buffer; a missing or empty buffer emits nothing. -/
def flushPendingBuffer (st : PersistState) (key : String) :
    PersistState × List (List StoredMessage) :=
  match lookupKey key st.persistenceBuffers with
  | none => (st, [])
  | some b =>
    if b.messages.isEmpty then (st, [])
    else ({ st with persistenceBuffers := eraseKey key st.persistenceBuffers },
          [b.messages])

/-- The low-activity path of `enqueueMessageForPersistence`: flush the
scope's pending buffer, then write the current message directly as its
own singleton batch. -/
def enqueueDirect (st : PersistState) (key : String) (m : StoredMessage) :
    PersistState × List (List StoredMessage) :=
  let p := flushPendingBuffer st key
  (p.1, p.2 ++ [[m]])

/-- The high-activity path of `enqueueMessageForPersistence`: append the
message to the scope's buffer; once the buffer holds 50 messages
(`bufferFlushSize`), flush it as one batched write. -/
def enqueueBuffer (st : PersistState) (key : String) (m : StoredMessage)
    (nowMs : Int) : PersistState × List (List StoredMessage) :=
  let old := (lookupKey key st.persistenceBuffers).getD ⟨[], 0⟩
  let buf : PersistenceBuffer := ⟨old.messages ++ [m], nowMs⟩
  let st2 : PersistState :=
    { st with persistenceBuffers := putKey key buf st.persistenceBuffers }
  if 50 ≤ buf.messages.length then flushPendingBuffer st2 key
  else (st2, [])

/-- The `stats.count += 1` step: store the scope's window back with the
incremented count (the map and the stats object are aliased in the
source, so the increment is visible in the map). -/
def bumpActivity (st : PersistState) (m : StoredMessage) : PersistState :=
  PersistState.mk
    (putKey (getPersistenceKey m)
      ⟨(getActivityStats st (getPersistenceKey m) m.timestamp).windowStart,
        (getActivityStats st (getPersistenceKey m) m.timestamp).count + 1⟩
      st.activityStats)
    st.persistenceBuffers

/-- `enqueueMessageForPersistence`: bump the scope's window count; below
the high-activity threshold (30) take the flush-then-direct-write path,
at or above it take the buffered path.  The second component lists the
batches handed to the durable-store write, in order. -/
def enqueueMessageForPersistence (st : PersistState) (m : StoredMessage)
    (nowMs : Int) : PersistState × List (List StoredMessage) :=
  let key := getPersistenceKey m
  let st1 := bumpActivity st m
  if (getActivityStats st key m.timestamp).count + 1 < 30 then enqueueDirect st1 key m
  else enqueueBuffer st1 key m nowMs

/-- Flush the given scope keys one after the other, collecting the
emitted batches. -/
def flushKeys : List String → PersistState → PersistState × List (List StoredMessage)
  | [], st => (st, [])
  | k :: ks, st =>
    let p := flushPendingBuffer st k
    let q := flushKeys ks p.1
    (q.1, p.2 ++ q.2)

/-- `flushAllBuffers` (the shutdown flush registered on `dispose`): flush
every key currently present in the buffer map. -/
def flushAllBuffers (st : PersistState) : PersistState × List (List StoredMessage) :=
  flushKeys (st.persistenceBuffers.map Prod.fst) st

/-- Feed a stream of (message, `Date.now()`) pairs through
`enqueueMessageForPersistence`, collecting all emitted batches. -/
def runPersistence : PersistState → List (StoredMessage × Int) →
    PersistState × List (List StoredMessage)
  | st, [] => (st, [])
  | st, (m, now) :: rest =>
    let p := enqueueMessageForPersistence st m now
    let q := runPersistence p.1 rest
    (q.1, p.2 ++ q.2)

/-- How many times message `x` occurs among the emitted batches. -/
def writesCount (ws : List (List StoredMessage)) (x : StoredMessage) : Nat :=
  (ws.map (fun l => l.count x)).sum

/-- How many times message `x` sits in some persistence buffer. -/
def bufferedCount (st : PersistState) (x : StoredMessage) : Nat :=
  ((st.persistenceBuffers.map (fun p => p.2.messages)).join).count x

/-- The state handled by `AnalysisService.handleIncomingMessageForPersona`:
per-user pending-message counters and the exclusive processing set. -/
structure PersonaState where
  pending : List (String × Nat)
  processing : List String
deriving DecidableEq, Repr

/-- `handleIncomingMessageForPersona`: skip when auto-analysis is
disabled, the user id is falsy, or the user is persona-excluded;
otherwise bump the user's pending counter and, when the counter reaches
the interval and no analysis is in flight for the key, add the key to
the processing set and start one analysis run.  The boolean reports
whether a run was started. -/
def handleIncomingMessageForPersona (cfg : Config) (st : PersonaState)
    (s : SessionM) : PersonaState × Bool :=
  if cfg.personaAnalysisMessageInterval == 0 then (st, false)
  else
    match s.userId with
    | none => (st, false)
    | some uid =>
      if uid.isEmpty then (st, false)
      else if cfg.personaUserFilter.contains uid then (st, false)
      else
        let rid := buildPersonaRecordId s.platform s.selfId uid
        let p1 := (lookupKey rid st.pending).getD 0 + 1
        let pending1 := putKey rid p1 st.pending
        if cfg.personaAnalysisMessageInterval ≤ p1 ∧ st.processing.contains rid = false then
          ({ pending := pending1, processing := rid :: st.processing }, true)
        else
          ({ st with pending := pending1 }, false)

/-- Completion of a detached `runPersonaAnalysis` task: the `.catch`
logs a failure and the `.finally` — on the success and the failure path
alike — removes the key from the processing set and resets the user's
pending counter to 0. -/
def completePersonaRun (st : PersonaState) (rid : String)
    (outcome : Except Unit Unit) : PersonaState :=
  match outcome with
  | .ok _ =>
    { pending := putKey rid 0 st.pending
      processing := st.processing.filter (fun k => !(k == rid)) }
  | .error _ =>
    { pending := putKey rid 0 st.pending
      processing := st.processing.filter (fun k => !(k == rid)) }

/-- A durable-store row with timestamp 1000ms. -/
def dbMsgOld : StoredMessage :=
  { id := "a", platform := "p", selfId := "s", channelId := some "c",
    guildId := some "g", userId := "u", username := "u", content := "hi",
    avatarUrl := "", timestamp := 1000, messageId := some "1" }

/-- A durable-store row with timestamp 2000ms. -/
def dbMsgNew : StoredMessage :=
  { dbMsgOld with id := "b", timestamp := 2000, messageId := some "2" }

/-- The empty history filter (all fields defaulted). -/
def emptyFilter : MessageFilter := {}

/-- Configuration for the purpose-isolation scenario: user `u` is in the
group-analysis exclusion list only, user `v` in the persona exclusion
list only. -/
def personaBugCfg : Config := { userFilter := ["u"], personaUserFilter := ["v"] }

/-- A user-persona query that explicitly asks for user `u`'s messages. -/
def personaBugFilter : MessageFilter :=
  { userId := some ["u"], purpose := some .userPersona }

/-- A raw OneBot page message from user `u` at t=100s. -/
def obMsg1 : OneBotMsg :=
  { message_id := 11, time := 100, message_seq := 5, user_id := "u",
    nickname := "n", raw_message := "hello" }

/-- A second raw OneBot page message at t=101s. -/
def obMsg2 : OneBotMsg := { obMsg1 with message_id := 12, time := 101, message_seq := 6 }

/-- A OneBot query with `limit = 1`. -/
def obLimitFilter : MessageFilter :=
  { guildId := some "g", limit := some 1, startTime := some 0,
    endTime := some 1000000000 }

/-- A OneBot backend whose first page holds two valid messages and whose
second page is empty. -/
def obLimitBackend : Nat → Int → Except Unit (List OneBotMsg) :=
  fun i _ => if i == 0 then .ok [obMsg1, obMsg2] else .ok []

/-- A raw bot-API page message at t=500ms. -/
def apiMsg1 : BotAPIMsg :=
  { id := "m1", userId := "u", username := "n", content := "hey", createdAt := 500 }

/-- A bot-API query over `[0, 1000000]` with `limit = 10`. -/
def apiWindowFilter : MessageFilter :=
  { channelId := some "c", limit := some 10, startTime := some 0,
    endTime := some 1000000 }

/-- A bot-API backend that serves one page holding a valid message, then
throws on the second call. -/
def apiThrowBackend : Nat → Option String → Except Unit BotPage :=
  fun i _ => if i == 0 then .ok { data := [apiMsg1], prev := some "cur" } else .error ()

/-- The same backend with the throw replaced by an exhausted (empty)
page, exposing what had been accumulated when the exception hit. -/
def apiTruncBackend : Nat → Option String → Except Unit BotPage :=
  fun i _ => if i == 0 then .ok { data := [apiMsg1], prev := some "cur" } else .ok { data := [] }

/-- A bot-API backend that throws immediately. -/
def apiThrowAtOnceBackend : Nat → Option String → Except Unit BotPage :=
  fun _ _ => .error ()

/-- A OneBot backend that throws immediately. -/
def obThrowAtOnceBackend : Nat → Int → Except Unit (List OneBotMsg) :=
  fun _ _ => .error ()

/-- C1 counterexample material: a page message that is never counted as
valid because the query asks for a different user. -/
def advMsg : BotAPIMsg :=
  { id := "mx", userId := "bob", username := "n", content := "x", createdAt := 5 }

/-- A query whose `userId` set never matches `advMsg`. -/
def advFilter : MessageFilter :=
  { channelId := some "c", userId := some ["alice"], limit := some 7,
    startTime := some 0, endTime := some 1000000 }

/-- A misbehaving backend: every call returns the same non-empty page
with a fresh cursor, so none of the loop's stop conditions ever fires. -/
def advBackend : Nat → Option String → Except Unit BotPage :=
  fun _ _ => .ok { data := [advMsg], prev := some "cur" }

/-- C2 counterexample: on the durable-store path the returned list is
ordered descending by timestamp — with two rows at 1000ms and 2000ms the
result is `[2000, 1000]`, so `R[0].timestamp <= R[1].timestamp` fails. -/
theorem db_ascending_order_counterexample :
    (getDatabaseHistoricalMessages {} emptyFilter [dbMsgOld, dbMsgNew]).map
        (fun m => m.timestamp) = [2000, 1000]
      ∧ ¬((2000 : Int) ≤ 1000) := by
  constructor
  · rfl
  · decide

/-- C2 amended: the durable-store path sorts by timestamp descending
(`orderBy timestamp desc`), and `offset`/`limit` preserve that order, so
the returned list is descending, not ascending. -/
theorem db_query_sorted_descending (cfg : Config) (filter : MessageFilter)
    (rows : List StoredMessage) :
    List.Sorted tsDesc (getDatabaseHistoricalMessages cfg filter rows) := by
  unfold getDatabaseHistoricalMessages
  have hs : List.Sorted tsDesc
      ((rows.filter (dbRowMatches cfg filter)).insertionSort tsDesc) :=
    List.sorted_insertionSort tsDesc _
  exact List.Pairwise.sublist
    ((List.take_sublist _ _).trans (List.drop_sublist _ _)) hs

/-- C3 counterexample: the legacy OneBot path applies no final truncation
to `limit` — with `limit = 1` and a first page holding two valid
messages the call returns two messages. -/
theorem onebot_limit_exceeded_counterexample :
    (getOneBotHistoricalMessages {} obLimitFilter "self" false obLimitBackend 0 10).map
        List.length = some 2
      ∧ obLimitFilter.limit = some 1 ∧ ¬(2 ≤ 1) := by
  refine ⟨rfl, rfl, by decide⟩

/-- C4 (code bug): on the durable-store path, a `user-persona` query with
an explicit `userId` list filters that list against
`config.userFilter` (the group-analysis exclusion list) instead of
`config.personaUserFilter`, against the adjacent code comment — so user
`u`, excluded only from group analysis, loses their messages on the
persona path as well: the query returns nothing, while the identical
query without the purpose tag returns `u`'s row, and `u` is not in the
persona exclusion list. -/
theorem db_user_persona_filter_bug :
    getDatabaseHistoricalMessages personaBugCfg personaBugFilter [dbMsgOld] = []
      ∧ getDatabaseHistoricalMessages personaBugCfg
          { personaBugFilter with purpose := none } [dbMsgOld] = [dbMsgOld]
      ∧ personaBugCfg.personaUserFilter.contains dbMsgOld.userId = false := by
  refine ⟨rfl, rfl, rfl⟩

/-- C1 counterexample: both catch blocks return `[]`.  With a backend
that delivers one valid message and then throws, the call returns the
empty list — although, as the no-throw variant of the same backend
shows, one valid message had already been accumulated when the
exception hit. -/
theorem botapi_exception_discards_partial :
    getBotAPIHistoricalMessages {} apiWindowFilter "p" "s" apiThrowBackend 0 10 = some []
      ∧ (getBotAPIHistoricalMessages {} apiWindowFilter "p" "s" apiTruncBackend 0 10).map
          List.length = some 1 :=
  ⟨rfl, rfl⟩

/-- C1 amended: on an exception mid-loop, both live paging paths catch
the error and return the empty list — the accumulated messages are
discarded, and no error propagates to the caller. -/
theorem paging_exception_swallowed_empty
    (cfg : Config) (filter : MessageFilter) (platform selfId botSelfId : String)
    (isLagrange : Bool) (backendB : Nat → Option String → Except Unit BotPage)
    (backendO : Nat → Int → Except Unit (List OneBotMsg))
    (now : Int) (fuel : Nat) :
    (∀ targetId, jsOr filter.channelId filter.guildId = some targetId →
      botAPIRun cfg filter platform selfId targetId (botEffLimit filter)
          (defaultStartTime filter now) (defaultEndTime filter now) backendB fuel
          ⟨[], 0, 0, none, 0⟩ = .thrown →
      getBotAPIHistoricalMessages cfg filter platform selfId backendB now fuel = some [])
    ∧ (∀ targetId, jsOr filter.guildId filter.channelId = some targetId →
      oneBotRun cfg filter isLagrange (botEffLimit filter)
          (defaultStartTime filter now) (defaultEndTime filter now) backendO fuel
          ⟨[], 0, 0, 0, none, 0⟩ = .thrown →
      getOneBotHistoricalMessages cfg filter botSelfId isLagrange backendO now fuel
        = some []) := by
  constructor
  · intro t ht hrun
    simp only [getBotAPIHistoricalMessages, ht, hrun]
  · intro t ht hrun
    simp only [getOneBotHistoricalMessages, ht, hrun]

/-- Witness for the C1 amended theorem at concrete throwing backends. -/
theorem paging_exception_swallowed_empty_witness :
    getBotAPIHistoricalMessages {} apiWindowFilter "p" "s" apiThrowAtOnceBackend 0 10
        = some []
      ∧ getOneBotHistoricalMessages {} obLimitFilter "self" false obThrowAtOnceBackend 0 10
        = some [] :=
  ⟨(paging_exception_swallowed_empty {} apiWindowFilter "p" "s" "self" false
      apiThrowAtOnceBackend obThrowAtOnceBackend 0 10).1 "c" rfl rfl,
   (paging_exception_swallowed_empty {} obLimitFilter "p" "s" "self" false
      apiThrowAtOnceBackend obThrowAtOnceBackend 0 10).2 "g" rfl rfl⟩

/-- Every `done` exit of the bot-API paging loop truncates the
accumulated list to `limit`. -/
theorem botAPIRun_done_length (cfg : Config) (filter : MessageFilter)
    (platform selfId targetId : String) (limit : Nat) (startTime endTime : Int)
    (backend : Nat → Option String → Except Unit BotPage) :
    ∀ (fuel : Nat) (st : BotState) (msgs : List StoredMessage),
      botAPIRun cfg filter platform selfId targetId limit startTime endTime
          backend fuel st = .done msgs →
      msgs.length ≤ limit := by
  intro fuel
  induction fuel with
  | zero =>
    intro st msgs h
    simp [botAPIRun] at h
  | succ n ih =>
    intro st msgs h
    rw [botAPIRun] at h
    split at h
    · split at h
      · exact FetchOut.noConfusion h
      · split at h
        · rw [FetchOut.done.injEq] at h
          subst h
          simp only [List.length_take]
          exact Nat.min_le_left _ _
        · dsimp only at h
          split at h
          · rw [FetchOut.done.injEq] at h
            subst h
            simp only [List.length_take]
            exact Nat.min_le_left _ _
          · split at h
            · rw [FetchOut.done.injEq] at h
              subst h
              simp only [List.length_take]
              exact Nat.min_le_left _ _
            · exact ih _ _ h
    · rw [FetchOut.done.injEq] at h
      subst h
      simp only [List.length_take]
      exact Nat.min_le_left _ _

/-- C3 amended: the generic bot-API path truncates its result to the
effective limit (`filter.limit || 100`) and the durable-store path
applies `limit (filter.limit ?? 100)` in the query; the legacy OneBot
path performs no such truncation (see the counterexample). -/
theorem botapi_db_limit_respected (cfg : Config) (filter : MessageFilter)
    (platform selfId : String)
    (backend : Nat → Option String → Except Unit BotPage)
    (now : Int) (fuel : Nat) (rows : List StoredMessage) :
    (∀ R, getBotAPIHistoricalMessages cfg filter platform selfId backend now fuel
        = some R → R.length ≤ botEffLimit filter)
    ∧ (getDatabaseHistoricalMessages cfg filter rows).length
        ≤ filter.limit.getD 100 := by
  constructor
  · intro R hR
    unfold getBotAPIHistoricalMessages at hR
    split at hR
    · injection hR with h
      subst h
      simp
    · split at hR
      · rename_i targetId heq x msgs hrun
        injection hR with h
        subst h
        exact botAPIRun_done_length cfg filter platform selfId targetId
          (botEffLimit filter) (defaultStartTime filter now)
          (defaultEndTime filter now) backend fuel _ _ hrun
      · injection hR with h
        subst h
        simp
      · exact Option.noConfusion hR
  · unfold getDatabaseHistoricalMessages
    simp only [List.length_take]
    exact Nat.min_le_left _ _

/-- Witness for the C3 amended theorem at concrete inputs. -/
theorem botapi_db_limit_respected_witness :
    ([] : List StoredMessage).length ≤ botEffLimit apiWindowFilter
      ∧ (getDatabaseHistoricalMessages {} emptyFilter [dbMsgOld, dbMsgNew]).length
          ≤ emptyFilter.limit.getD 100 :=
  ⟨(botapi_db_limit_respected {} apiWindowFilter "p" "s" apiThrowAtOnceBackend 0 10
      []).1 [] rfl,
   (botapi_db_limit_respected {} emptyFilter "p" "s" apiThrowAtOnceBackend 0 10
      [dbMsgOld, dbMsgNew]).2⟩

/-- C6 counterexample: the rounds counter is never consulted.  Against a
backend that always answers with the same non-empty page and a fresh
cursor — while the query's `userId` set never matches, so no message
counts toward `limit` — the public call has not returned after 60 fuel
rounds, and the loop state records 60 completed rounds, exceeding the
claimed hard cap of about 50. -/
theorem botapi_round_cap_counterexample :
    getBotAPIHistoricalMessages {} advFilter "p" "s" advBackend 0 60 = none
      ∧ (botAPIRun {} advFilter "p" "s" "c" 7 0 1000000 advBackend 60
          ⟨[], 0, 0, none, 0⟩).runningRounds = some 60
      ∧ 50 < 60 :=
  ⟨rfl, rfl, by decide⟩

/-- One round of the bot-API loop against the misbehaving backend leaves
everything unchanged except the rounds and call counters. -/
theorem advBackend_step (n k : Nat) :
    botAPIRun {} advFilter "p" "s" "c" 7 0 1000000 advBackend (n + 1)
        ⟨[], 0, k, some "cur", k⟩
      = botAPIRun {} advFilter "p" "s" "c" 7 0 1000000 advBackend n
        ⟨[], 0, k + 1, some "cur", k + 1⟩ := rfl

/-- The first round from the initial state reaches the recurring state. -/
theorem advBackend_step0 (n : Nat) :
    botAPIRun {} advFilter "p" "s" "c" 7 0 1000000 advBackend (n + 1)
        ⟨[], 0, 0, none, 0⟩
      = botAPIRun {} advFilter "p" "s" "c" 7 0 1000000 advBackend n
        ⟨[], 0, 1, some "cur", 1⟩ := rfl

/-- C6 amended: no hard round cap exists among the stop conditions of
the paging loops — against the misbehaving backend above, the bot-API
loop is still running after `n` rounds for every `n`. -/
theorem botapi_loop_no_round_cap : ∀ n : Nat,
    (botAPIRun {} advFilter "p" "s" "c" 7 0 1000000 advBackend n
        ⟨[], 0, 0, none, 0⟩).stillRunning = true := by
  have aux : ∀ (n k : Nat),
      (botAPIRun {} advFilter "p" "s" "c" 7 0 1000000 advBackend n
          ⟨[], 0, k, some "cur", k⟩).stillRunning = true := by
    intro n
    induction n with
    | zero => intro k; rfl
    | succ n ih =>
      intro k
      rw [advBackend_step]
      exact ih (k + 1)
  intro n
  cases n with
  | zero => rfl
  | succ n =>
    rw [advBackend_step0]
    exact aux n 1

/-- After upserting `m`, some row carries `m`'s id. -/
theorem upsertOne_any_id (rows : List StoredMessage) (m : StoredMessage) :
    (upsertOne rows m).any (fun r => r.id == m.id) = true := by
  unfold upsertOne
  by_cases h : rows.any (fun r => r.id == m.id) = true
  · rw [if_pos h]
    simp only [List.any_map, List.any_eq_true, Function.comp] at h ⊢
    obtain ⟨r, hr, hid⟩ := h
    exact ⟨r, hr, by simp [hid]⟩
  · rw [if_neg h]
    simp

/-- Upserting a row whose id is already present does not grow the table. -/
theorem upsertOne_length_of_any (rows : List StoredMessage) (m : StoredMessage)
    (h : rows.any (fun r => r.id == m.id) = true) :
    (upsertOne rows m).length = rows.length := by
  unfold upsertOne
  rw [if_pos h]
  exact List.length_map _ _

/-- C5: when a (truthy) native message id is present, the synthetic id
built by `handleMessage` is `platform_messageId` — independent of
`Date.now()` and of the random suffix — so ingesting the same native
message twice produces the same primary id and the second upsert does
not create a second row. -/
theorem native_id_ingestion_idempotent (s : SessionM)
    (now1 now2 : Int) (rand1 rand2 : String) (rows : List StoredMessage)
    (h : optTruthy s.messageId = true) :
    (handleMessageStored s now1 rand1).id = (handleMessageStored s now2 rand2).id
    ∧ (upsertRows (upsertRows rows [handleMessageStored s now1 rand1])
          [handleMessageStored s now2 rand2]).length
        = (upsertRows rows [handleMessageStored s now1 rand1]).length := by
  have hid : (handleMessageStored s now1 rand1).id
      = (handleMessageStored s now2 rand2).id := by
    simp [handleMessageStored, uniqueId, h]
  refine ⟨hid, ?_⟩
  show (upsertOne (upsertOne rows (handleMessageStored s now1 rand1))
      (handleMessageStored s now2 rand2)).length
    = (upsertOne rows (handleMessageStored s now1 rand1)).length
  apply upsertOne_length_of_any
  rw [← hid]
  exact upsertOne_any_id rows (handleMessageStored s now1 rand1)

/-- A live session carrying a native message id. -/
def sessionNative : SessionM :=
  { platform := "p", selfId := "s", channelId := some "c", guildId := some "g",
    userId := some "u", username := "n", content := "hello", timestamp := 7,
    messageId := some "42" }

/-- Witness for the C5 theorem at a concrete session. -/
theorem native_id_ingestion_idempotent_witness :
    (handleMessageStored sessionNative 1 "r1").id
        = (handleMessageStored sessionNative 2 "r2").id
    ∧ (upsertRows (upsertRows [] [handleMessageStored sessionNative 1 "r1"])
          [handleMessageStored sessionNative 2 "r2"]).length
        = (upsertRows [] [handleMessageStored sessionNative 1 "r1"]).length :=
  native_id_ingestion_idempotent sessionNative 1 2 "r1" "r2" [] (by decide)

/-- C10: the handler loop of `handleMessage` returns normally (never an
error) and records one result per registered handler, in list order; a
handler registered last via `onUserMessage` runs last.  In particular a
handler that throws neither stops the remaining handlers nor escapes
the ingestion handler. -/
theorem message_handlers_all_invoked_errors_contained
    (handlers : List (SessionM → Except String Unit)) (s : SessionM)
    (h : SessionM → Except String Unit) :
    notifyMessageHandlers handlers s = .ok (handlers.map (fun f => f s))
    ∧ notifyMessageHandlers (onUserMessage handlers h) s
        = .ok (handlers.map (fun f => f s) ++ [h s]) := by
  have main : ∀ hs : List (SessionM → Except String Unit),
      notifyMessageHandlers hs s = .ok (hs.map (fun f => f s)) := by
    intro hs
    induction hs with
    | nil => rfl
    | cons f rest ih => simp [notifyMessageHandlers, ih, Except.map]
  exact ⟨main handlers, by simp [onUserMessage, main]⟩

/-- The persona record key a session maps to. -/
def ridOfSession (s : SessionM) : String :=
  buildPersonaRecordId s.platform s.selfId (s.userId.getD "")

/-- C9: while a user key sits in the processing set, a further trigger
event for that key starts no analysis run; and completing a run — on
the success and the failure path alike — removes the key from the
processing set and resets its pending counter to 0, so no key stays in
the Analyzing state. -/
theorem persona_analysis_exclusive_and_released (cfg : Config)
    (st : PersonaState) (s : SessionM) (rid : String) (outcome : Except Unit Unit)
    (h : st.processing.contains (ridOfSession s) = true) :
    (handleIncomingMessageForPersona cfg st s).2 = false
    ∧ (completePersonaRun st rid outcome).processing.contains rid = false
    ∧ lookupKey rid (completePersonaRun st rid outcome).pending = some 0 := by
  refine ⟨?_, ?_, ?_⟩
  · unfold handleIncomingMessageForPersona
    split
    · rfl
    · split
      · rfl
      · rename_i uid heq
        split
        · rfl
        · split
          · rfl
          · dsimp only
            split
            · rename_i hc
              unfold ridOfSession at h
              rw [heq] at h
              simp only [Option.getD_some] at h
              rw [hc.2] at h
              exact Bool.noConfusion h
            · rfl
  · cases outcome with
    | ok _ =>
      unfold completePersonaRun
      simp [List.contains_iff_exists_mem_beq]
    | error _ =>
      unfold completePersonaRun
      simp [List.contains_iff_exists_mem_beq]
  · cases outcome with
    | ok _ => simp [completePersonaRun, putKey, lookupKey]
    | error _ => simp [completePersonaRun, putKey, lookupKey]

/-- A persona state in which user key `p:s:u` is being analyzed. -/
def personaBusySt : PersonaState :=
  { pending := [("p:s:u", 4)], processing := ["p:s:u"] }

/-- A session event from the user whose analysis is in flight. -/
def personaSess : SessionM :=
  { platform := "p", selfId := "s", userId := some "u", username := "n" }

/-- Witness for the C9 theorem at a concrete in-flight state. -/
theorem persona_analysis_exclusive_and_released_witness :
    (handleIncomingMessageForPersona { personaAnalysisMessageInterval := 5 }
        personaBusySt personaSess).2 = false
    ∧ (completePersonaRun personaBusySt "p:s:u" (.error ())).processing.contains
        "p:s:u" = false
    ∧ lookupKey "p:s:u" (completePersonaRun personaBusySt "p:s:u" (.error ())).pending
        = some 0 :=
  persona_analysis_exclusive_and_released { personaAnalysisMessageInterval := 5 }
    personaBusySt personaSess "p:s:u" (.error ()) (by decide)

def bufMsgsCount (l : List (String × PersistenceBuffer)) (x : StoredMessage) : Nat :=
  ((l.map (fun p => p.2.messages)).join).count x

theorem bufferedCount_eq (st : PersistState) (x : StoredMessage) :
    bufferedCount st x = bufMsgsCount st.persistenceBuffers x := rfl

theorem bufMsgsCount_cons (p : String × PersistenceBuffer)
    (t : List (String × PersistenceBuffer)) (x : StoredMessage) :
    bufMsgsCount (p :: t) x = p.2.messages.count x + bufMsgsCount t x := by
  simp [bufMsgsCount, List.count_append]

theorem writesCount_append (a b : List (List StoredMessage)) (x : StoredMessage) :
    writesCount (a ++ b) x = writesCount a x + writesCount b x := by
  simp [writesCount]

theorem writesCount_single (l : List StoredMessage) (x : StoredMessage) :
    writesCount [l] x = l.count x := by
  simp [writesCount]

theorem count_singleton_eq (x m : StoredMessage) :
    ([m] : List StoredMessage).count x = if x = m then 1 else 0 := by
  by_cases h : x = m
  · subst h
    simp
  · simp [List.count_cons, h]

theorem lookupKey_none_forall {α : Type} (k : String) (l : List (String × α))
    (h : lookupKey k l = none) :
    ∀ p ∈ l, (p.1 == k) = false := by
  induction l with
  | nil => intro p hp; exact absurd hp (List.not_mem_nil p)
  | cons q t ih =>
    intro p hp
    unfold lookupKey at h
    by_cases hq : (q.1 == k) = true
    · rw [if_pos hq] at h
      exact Option.noConfusion h
    · rw [if_neg hq] at h
      simp only [List.mem_cons] at hp
      rcases hp with rfl | hp
      · exact Bool.not_eq_true _ ▸ hq
      · exact ih h p hp

theorem eraseKey_eq_self_of_lookupKey_none {α : Type} (k : String)
    (l : List (String × α)) (h : lookupKey k l = none) :
    eraseKey k l = l := by
  have hall := lookupKey_none_forall k l h
  unfold eraseKey
  rw [List.filter_eq_self]
  intro p hp
  rw [hall p hp]
  rfl

theorem eraseKey_eq_self_of_not_mem {α : Type} (k : String)
    (l : List (String × α)) (h : k ∉ l.map Prod.fst) :
    eraseKey k l = l := by
  unfold eraseKey
  rw [List.filter_eq_self]
  intro p hp
  have hne : p.1 ≠ k := fun hpk => h (List.mem_map.mpr ⟨p, hp, hpk⟩)
  simp [hne]

theorem eraseKey_cons_beq {α : Type} (k : String) (q : String × α)
    (t : List (String × α)) (h : (q.1 == k) = true) :
    eraseKey k (q :: t) = eraseKey k t := by
  simp [eraseKey, List.filter, h]

theorem eraseKey_cons_ne {α : Type} (k : String) (q : String × α)
    (t : List (String × α)) (h : (q.1 == k) = false) :
    eraseKey k (q :: t) = q :: eraseKey k t := by
  simp [eraseKey, List.filter, h]

theorem mem_of_lookupKey_some {α : Type} (k : String) (b : α)
    (l : List (String × α)) (h : lookupKey k l = some b) :
    (k, b) ∈ l := by
  induction l with
  | nil => exact Option.noConfusion h
  | cons q t ih =>
    unfold lookupKey at h
    by_cases hq : (q.1 == k) = true
    · rw [if_pos hq] at h
      injection h with hb
      have hk : q.1 = k := eq_of_beq hq
      have hqe : (k, b) = q := by
        obtain ⟨qk, qv⟩ := q
        simp only at hk hb
        rw [hk, hb]
      rw [hqe]
      exact List.mem_cons_self q t
    · rw [if_neg hq] at h
      exact List.mem_cons_of_mem q (ih h)

theorem eraseKey_nodup {α : Type} (k : String) (l : List (String × α))
    (h : (l.map Prod.fst).Nodup) :
    ((eraseKey k l).map Prod.fst).Nodup :=
  h.sublist (List.Sublist.map Prod.fst (List.filter_sublist l))

theorem putKey_nodup {α : Type} (k : String) (v : α) (l : List (String × α))
    (h : (l.map Prod.fst).Nodup) :
    ((putKey k v l).map Prod.fst).Nodup := by
  unfold putKey
  rw [List.map_cons, List.nodup_cons]
  constructor
  · intro hk
    obtain ⟨p, hp, hpk⟩ := List.mem_map.mp hk
    have := List.mem_filter.mp hp
    rw [hpk] at this
    simp at this
  · exact eraseKey_nodup k l h

theorem lookupKey_putKey {α : Type} (k : String) (v : α) (l : List (String × α)) :
    lookupKey k (putKey k v l) = some v := by
  simp [putKey, lookupKey]

theorem bufMsgsCount_split (k : String) (b : PersistenceBuffer)
    (l : List (String × PersistenceBuffer)) (x : StoredMessage)
    (hnd : (l.map Prod.fst).Nodup) (hl : lookupKey k l = some b) :
    bufMsgsCount l x = b.messages.count x + bufMsgsCount (eraseKey k l) x := by
  induction l with
  | nil => exact Option.noConfusion hl
  | cons q t ih =>
    unfold lookupKey at hl
    by_cases hq : (q.1 == k) = true
    · rw [if_pos hq] at hl
      injection hl with hb
      rw [eraseKey_cons_beq k q t hq]
      have hk : q.1 = k := eq_of_beq hq
      have hkt : k ∉ t.map Prod.fst := by
        rw [List.map_cons, List.nodup_cons] at hnd
        rw [← hk]
        exact hnd.1
      rw [eraseKey_eq_self_of_not_mem k t hkt, bufMsgsCount_cons, ← hb]
    · rw [if_neg hq] at hl
      rw [eraseKey_cons_ne k q t (Bool.not_eq_true _ ▸ hq)]
      rw [bufMsgsCount_cons, bufMsgsCount_cons]
      rw [List.map_cons, List.nodup_cons] at hnd
      rw [ih hnd.2 hl]
      omega

theorem lookupKey_of_mem_nodup {α : Type} (l : List (String × α)) (p : String × α)
    (hnd : (l.map Prod.fst).Nodup) (hp : p ∈ l) :
    lookupKey p.1 l = some p.2 := by
  induction l with
  | nil => exact absurd hp (List.not_mem_nil p)
  | cons q t ih =>
    rw [List.map_cons, List.nodup_cons] at hnd
    rcases List.mem_cons.mp hp with rfl | hp2
    · unfold lookupKey
      rw [if_pos (by simp)]
    · unfold lookupKey
      have hmem : p.1 ∈ t.map Prod.fst := List.mem_map.mpr ⟨p, hp2, rfl⟩
      have hne : q.1 ≠ p.1 := fun he => hnd.1 (he ▸ hmem)
      rw [if_neg (by simp [hne])]
      exact ih hnd.2 hp2

theorem bufMsgsCount_putKey (k : String) (v : PersistenceBuffer)
    (l : List (String × PersistenceBuffer)) (x : StoredMessage) :
    bufMsgsCount (putKey k v l) x = v.messages.count x + bufMsgsCount (eraseKey k l) x := by
  unfold putKey
  exact bufMsgsCount_cons (k, v) _ x

theorem flushPendingBuffer_conserve (st : PersistState) (k : String) (x : StoredMessage)
    (hnd : (st.persistenceBuffers.map Prod.fst).Nodup) :
    writesCount (flushPendingBuffer st k).2 x
      + bufferedCount (flushPendingBuffer st k).1 x = bufferedCount st x := by
  unfold flushPendingBuffer
  cases hl : lookupKey k st.persistenceBuffers with
  | none => simp [writesCount]
  | some b =>
    dsimp only
    by_cases he : b.messages.isEmpty = true
    · simp [he, writesCount]
    · rw [if_neg he]
      rw [writesCount_single, bufferedCount_eq, bufferedCount_eq]
      exact ((bufMsgsCount_split k b _ x hnd hl).symm)

theorem flushPendingBuffer_nodup (st : PersistState) (k : String)
    (hnd : (st.persistenceBuffers.map Prod.fst).Nodup) :
    (((flushPendingBuffer st k).1.persistenceBuffers).map Prod.fst).Nodup := by
  unfold flushPendingBuffer
  cases hl : lookupKey k st.persistenceBuffers with
  | none => exact hnd
  | some b =>
    dsimp only
    by_cases he : b.messages.isEmpty = true
    · rw [if_pos he]
      exact hnd
    · rw [if_neg he]
      exact eraseKey_nodup k _ hnd

theorem flushPendingBuffer_ne (st : PersistState) (k : String)
    (hne : ∀ p ∈ st.persistenceBuffers, p.2.messages ≠ []) :
    ∀ p ∈ (flushPendingBuffer st k).1.persistenceBuffers, p.2.messages ≠ [] := by
  unfold flushPendingBuffer
  cases hl : lookupKey k st.persistenceBuffers with
  | none => exact hne
  | some b =>
    dsimp only
    by_cases he : b.messages.isEmpty = true
    · rw [if_pos he]
      exact hne
    · rw [if_neg he]
      intro p hp
      exact hne p (List.mem_of_mem_filter hp)

theorem writesCount_nil (x : StoredMessage) : writesCount [] x = 0 := rfl

theorem enqueueDirect_conserve (st : PersistState) (key : String)
    (m x : StoredMessage)
    (hnd : (st.persistenceBuffers.map Prod.fst).Nodup) :
    writesCount (enqueueDirect st key m).2 x
      + bufferedCount (enqueueDirect st key m).1 x
      = bufferedCount st x + (if x = m then 1 else 0) := by
  show writesCount ((flushPendingBuffer st key).2 ++ [[m]]) x
      + bufferedCount (flushPendingBuffer st key).1 x
      = bufferedCount st x + (if x = m then 1 else 0)
  rw [writesCount_append, writesCount_single, count_singleton_eq]
  have h := flushPendingBuffer_conserve st key x hnd
  omega

theorem enqueueBuffer_conserve (st : PersistState) (key : String)
    (m : StoredMessage) (now : Int) (x : StoredMessage)
    (hnd : (st.persistenceBuffers.map Prod.fst).Nodup) :
    writesCount (enqueueBuffer st key m now).2 x
      + bufferedCount (enqueueBuffer st key m now).1 x
      = bufferedCount st x + (if x = m then 1 else 0) := by
  unfold enqueueBuffer
  dsimp only
  cases hl : lookupKey key st.persistenceBuffers with
  | none =>
    rw [Option.getD_none]
    have hself : eraseKey key st.persistenceBuffers = st.persistenceBuffers :=
      eraseKey_eq_self_of_lookupKey_none key _ hl
    rw [if_neg (by simp)]
    show writesCount [] x + bufMsgsCount
        (putKey key ⟨[] ++ [m], now⟩ st.persistenceBuffers) x
      = bufferedCount st x + (if x = m then 1 else 0)
    rw [bufMsgsCount_putKey, hself, writesCount_nil]
    rw [bufferedCount_eq]
    simp only [List.nil_append, count_singleton_eq]
    omega
  | some b =>
    rw [Option.getD_some]
    have hsplit := bufMsgsCount_split key b st.persistenceBuffers x hnd hl
    by_cases h50 : 50 ≤ (b.messages ++ [m]).length
    · rw [if_pos h50]
      have hnd2 : ((putKey key (⟨b.messages ++ [m], now⟩ : PersistenceBuffer)
          st.persistenceBuffers).map Prod.fst).Nodup :=
        putKey_nodup key _ _ hnd
      have h := flushPendingBuffer_conserve
        { st with persistenceBuffers :=
            putKey key ⟨b.messages ++ [m], now⟩ st.persistenceBuffers }
        key x hnd2
      rw [bufferedCount_eq, bufferedCount_eq] at h ⊢
      have hput := bufMsgsCount_putKey key
        (⟨b.messages ++ [m], now⟩ : PersistenceBuffer) st.persistenceBuffers x
      rw [List.count_append, count_singleton_eq] at hput
      dsimp only at h hput
      omega
    · rw [if_neg h50]
      show writesCount [] x + bufMsgsCount
          (putKey key ⟨b.messages ++ [m], now⟩ st.persistenceBuffers) x
        = bufferedCount st x + (if x = m then 1 else 0)
      rw [writesCount_nil, bufMsgsCount_putKey, List.count_append,
        count_singleton_eq, bufferedCount_eq]
      omega

theorem enqueue_conserve (st : PersistState) (m : StoredMessage) (now : Int)
    (x : StoredMessage)
    (hnd : (st.persistenceBuffers.map Prod.fst).Nodup) :
    writesCount (enqueueMessageForPersistence st m now).2 x
      + bufferedCount (enqueueMessageForPersistence st m now).1 x
      = bufferedCount st x + (if x = m then 1 else 0) := by
  unfold enqueueMessageForPersistence
  dsimp only
  by_cases hc : (getActivityStats st (getPersistenceKey m) m.timestamp).count + 1 < 30
  · rw [if_pos hc]
    exact enqueueDirect_conserve (bumpActivity st m) (getPersistenceKey m) m x hnd
  · rw [if_neg hc]
    exact enqueueBuffer_conserve (bumpActivity st m) (getPersistenceKey m) m now x hnd

theorem lookupKey_none_of_forall {α : Type} (k : String) (l : List (String × α))
    (h : ∀ p ∈ l, (p.1 == k) = false) :
    lookupKey k l = none := by
  induction l with
  | nil => rfl
  | cons q t ih =>
    unfold lookupKey
    rw [if_neg (by simp [h q (List.mem_cons_self q t)])]
    exact ih (fun p hp => h p (List.mem_cons_of_mem q hp))

theorem lookupKey_eraseKey_none {α : Type} (k : String) (l : List (String × α)) :
    lookupKey k (eraseKey k l) = none := by
  apply lookupKey_none_of_forall
  intro p hp
  have := (List.mem_filter.mp hp).2
  rwa [Bool.not_eq_true'] at this

theorem flushPendingBuffer_writes_of_ne (st : PersistState) (k : String)
    (hne : ∀ p ∈ st.persistenceBuffers, p.2.messages ≠ []) :
    (flushPendingBuffer st k).2
      = (match lookupKey k st.persistenceBuffers with
         | some b => [b.messages]
         | none => [])
    ∧ lookupKey k (flushPendingBuffer st k).1.persistenceBuffers = none := by
  cases hl : lookupKey k st.persistenceBuffers with
  | none =>
    have hfl : flushPendingBuffer st k = (st, []) := by
      unfold flushPendingBuffer
      rw [hl]
    rw [hfl]
    exact ⟨rfl, hl⟩
  | some b =>
    have hb : b.messages ≠ [] :=
      hne (k, b) (mem_of_lookupKey_some k b _ hl)
    have hbe : b.messages.isEmpty = false := by
      cases hmsg : b.messages with
      | nil => exact absurd hmsg hb
      | cons y ys => rfl
    have hfl : flushPendingBuffer st k
        = ({ st with persistenceBuffers := eraseKey k st.persistenceBuffers },
           [b.messages]) := by
      unfold flushPendingBuffer
      rw [hl]
      dsimp only
      rw [if_neg (by simp [hbe])]
    rw [hfl]
    exact ⟨rfl, lookupKey_eraseKey_none k st.persistenceBuffers⟩

theorem putKey_ne (k : String) (v : PersistenceBuffer)
    (l : List (String × PersistenceBuffer))
    (hv : v.messages ≠ []) (hne : ∀ p ∈ l, p.2.messages ≠ []) :
    ∀ p ∈ putKey k v l, p.2.messages ≠ [] := by
  intro p hp
  rcases List.mem_cons.mp hp with rfl | hp2
  · exact hv
  · exact hne p (List.mem_of_mem_filter hp2)

theorem enqueueDirect_nodup (st : PersistState) (key : String) (m : StoredMessage)
    (hnd : (st.persistenceBuffers.map Prod.fst).Nodup) :
    ((enqueueDirect st key m).1.persistenceBuffers.map Prod.fst).Nodup :=
  flushPendingBuffer_nodup st key hnd

theorem enqueueDirect_ne (st : PersistState) (key : String) (m : StoredMessage)
    (hne : ∀ p ∈ st.persistenceBuffers, p.2.messages ≠ []) :
    ∀ p ∈ (enqueueDirect st key m).1.persistenceBuffers, p.2.messages ≠ [] :=
  flushPendingBuffer_ne st key hne

theorem enqueueBuffer_nodup (st : PersistState) (key : String) (m : StoredMessage)
    (now : Int) (hnd : (st.persistenceBuffers.map Prod.fst).Nodup) :
    ((enqueueBuffer st key m now).1.persistenceBuffers.map Prod.fst).Nodup := by
  unfold enqueueBuffer
  dsimp only
  split
  · exact flushPendingBuffer_nodup _ key (putKey_nodup key _ _ hnd)
  · exact putKey_nodup key _ _ hnd

theorem enqueueBuffer_ne (st : PersistState) (key : String) (m : StoredMessage)
    (now : Int) (hne : ∀ p ∈ st.persistenceBuffers, p.2.messages ≠ []) :
    ∀ p ∈ (enqueueBuffer st key m now).1.persistenceBuffers, p.2.messages ≠ [] := by
  unfold enqueueBuffer
  dsimp only
  have hv : (((lookupKey key st.persistenceBuffers).getD ⟨[], 0⟩).messages
      ++ [m]) ≠ [] := by simp
  split
  · exact flushPendingBuffer_ne _ key (putKey_ne key _ _ hv hne)
  · exact putKey_ne key _ _ hv hne

theorem enqueue_nodup (st : PersistState) (m : StoredMessage) (now : Int)
    (hnd : (st.persistenceBuffers.map Prod.fst).Nodup) :
    ((enqueueMessageForPersistence st m now).1.persistenceBuffers.map Prod.fst).Nodup := by
  unfold enqueueMessageForPersistence
  dsimp only
  split
  · exact enqueueDirect_nodup _ _ m hnd
  · exact enqueueBuffer_nodup _ _ m now hnd

theorem enqueue_ne (st : PersistState) (m : StoredMessage) (now : Int)
    (hne : ∀ p ∈ st.persistenceBuffers, p.2.messages ≠ []) :
    ∀ p ∈ (enqueueMessageForPersistence st m now).1.persistenceBuffers,
      p.2.messages ≠ [] := by
  unfold enqueueMessageForPersistence
  dsimp only
  split
  · exact enqueueDirect_ne _ _ m hne
  · exact enqueueBuffer_ne _ _ m now hne

theorem runPersistence_nodup (ms : List (StoredMessage × Int)) :
    ∀ st : PersistState, (st.persistenceBuffers.map Prod.fst).Nodup →
      ((runPersistence st ms).1.persistenceBuffers.map Prod.fst).Nodup := by
  induction ms with
  | nil => intro st hnd; exact hnd
  | cons p rest ih =>
    intro st hnd
    obtain ⟨m, now⟩ := p
    unfold runPersistence
    dsimp only
    exact ih _ (enqueue_nodup st m now hnd)

theorem runPersistence_conserve (ms : List (StoredMessage × Int)) :
    ∀ (st : PersistState) (x : StoredMessage),
      (st.persistenceBuffers.map Prod.fst).Nodup →
      writesCount (runPersistence st ms).2 x + bufferedCount (runPersistence st ms).1 x
        = bufferedCount st x + (ms.map Prod.fst).count x := by
  induction ms with
  | nil =>
    intro st x hnd
    simp [runPersistence, writesCount]
  | cons p rest ih =>
    intro st x hnd
    obtain ⟨m, now⟩ := p
    unfold runPersistence
    dsimp only
    rw [writesCount_append]
    have h1 := enqueue_conserve st m now x hnd
    have h2 := ih (enqueueMessageForPersistence st m now).1 x (enqueue_nodup st m now hnd)
    rw [List.map_cons, List.count_cons]
    dsimp only
    by_cases hxm : x = m
    · rw [if_pos hxm] at h1
      have hbeq : (m == x) = true := by simp [hxm]
      rw [if_pos hbeq]
      omega
    · rw [if_neg hxm] at h1
      have hbeq : ¬((m == x) = true) := by
        simp only [beq_iff_eq]
        exact fun he => hxm he.symm
      rw [if_neg hbeq]
      omega

theorem flushKeys_conserve (ks : List String) :
    ∀ (st : PersistState) (x : StoredMessage),
      (st.persistenceBuffers.map Prod.fst).Nodup →
      writesCount (flushKeys ks st).2 x + bufferedCount (flushKeys ks st).1 x
        = bufferedCount st x := by
  induction ks with
  | nil =>
    intro st x hnd
    simp [flushKeys, writesCount]
  | cons k rest ih =>
    intro st x hnd
    unfold flushKeys
    dsimp only
    rw [writesCount_append]
    have h1 := flushPendingBuffer_conserve st k x hnd
    have h2 := ih (flushPendingBuffer st k).1 x (flushPendingBuffer_nodup st k hnd)
    omega

theorem bufMsgsCount_zero_of_all_empty (l : List (String × PersistenceBuffer))
    (x : StoredMessage) (h : ∀ p ∈ l, p.2.messages = []) :
    bufMsgsCount l x = 0 := by
  induction l with
  | nil => rfl
  | cons q t ih =>
    rw [bufMsgsCount_cons, h q (List.mem_cons_self q t)]
    simp only [List.count_nil, Nat.zero_add]
    exact ih (fun p hp => h p (List.mem_cons_of_mem q hp))

theorem flushPendingBuffer_keys_cond (st : PersistState) (k : String)
    (ks : List String)
    (hnd : (st.persistenceBuffers.map Prod.fst).Nodup)
    (hcond : ∀ p ∈ st.persistenceBuffers, p.2.messages ≠ [] → p.1 ∈ k :: ks) :
    ∀ p ∈ (flushPendingBuffer st k).1.persistenceBuffers,
      p.2.messages ≠ [] → p.1 ∈ ks := by
  unfold flushPendingBuffer
  cases hl : lookupKey k st.persistenceBuffers with
  | none =>
    intro p hp hpne
    rcases List.mem_cons.mp (hcond p hp hpne) with hpk | hpk
    · have := lookupKey_none_forall k st.persistenceBuffers hl p hp
      rw [hpk] at this
      simp at this
    · exact hpk
  | some b =>
    dsimp only
    by_cases he : b.messages.isEmpty = true
    · rw [if_pos he]
      intro p hp hpne
      rcases List.mem_cons.mp (hcond p hp hpne) with hpk | hpk
      · have hlp := lookupKey_of_mem_nodup st.persistenceBuffers p hnd hp
        rw [hpk, hl] at hlp
        injection hlp with hpb
        rw [hpb] at he
        rw [List.isEmpty_iff] at he
        exact absurd he hpne
      · exact hpk
    · rw [if_neg he]
      intro p hp hpne
      have hp2 := List.mem_of_mem_filter hp
      have hpk : (p.1 == k) = false := by
        have := (List.mem_filter.mp hp).2
        rwa [Bool.not_eq_true'] at this
      rcases List.mem_cons.mp (hcond p hp2 hpne) with hpe | hpe
      · rw [hpe] at hpk
        simp at hpk
      · exact hpe

theorem flushKeys_empties (ks : List String) :
    ∀ (st : PersistState) (x : StoredMessage),
      (st.persistenceBuffers.map Prod.fst).Nodup →
      (∀ p ∈ st.persistenceBuffers, p.2.messages ≠ [] → p.1 ∈ ks) →
      bufferedCount (flushKeys ks st).1 x = 0 := by
  induction ks with
  | nil =>
    intro st x hnd hcond
    show bufferedCount st x = 0
    rw [bufferedCount_eq]
    apply bufMsgsCount_zero_of_all_empty
    intro p hp
    by_cases hempty : p.2.messages = []
    · exact hempty
    · exact absurd (hcond p hp hempty) (List.not_mem_nil p.1)
  | cons k rest ih =>
    intro st x hnd hcond
    unfold flushKeys
    dsimp only
    exact ih (flushPendingBuffer st k).1 x
      (flushPendingBuffer_nodup st k hnd)
      (flushPendingBuffer_keys_cond st k rest hnd hcond)

theorem enqueueDirect_spec (st : PersistState) (key : String) (m : StoredMessage)
    (hne : ∀ p ∈ st.persistenceBuffers, p.2.messages ≠ []) :
    (enqueueDirect st key m).2
      = (match lookupKey key st.persistenceBuffers with
         | some b => [b.messages]
         | none => []) ++ [[m]]
    ∧ lookupKey key (enqueueDirect st key m).1.persistenceBuffers = none := by
  have h := flushPendingBuffer_writes_of_ne st key hne
  refine ⟨?_, h.2⟩
  show (flushPendingBuffer st key).2 ++ [[m]] = _
  rw [h.1]

theorem enqueueBuffer_spec (st : PersistState) (key : String) (m : StoredMessage)
    (now : Int) :
    (((lookupKey key st.persistenceBuffers).getD ⟨[], 0⟩).messages.length + 1 < 50 →
      (enqueueBuffer st key m now).2 = []
      ∧ lookupKey key (enqueueBuffer st key m now).1.persistenceBuffers
        = some ⟨((lookupKey key st.persistenceBuffers).getD ⟨[], 0⟩).messages ++ [m],
            now⟩)
    ∧ (50 ≤ ((lookupKey key st.persistenceBuffers).getD ⟨[], 0⟩).messages.length + 1 →
      (enqueueBuffer st key m now).2
        = [((lookupKey key st.persistenceBuffers).getD ⟨[], 0⟩).messages ++ [m]]
      ∧ lookupKey key (enqueueBuffer st key m now).1.persistenceBuffers = none) := by
  unfold enqueueBuffer
  dsimp only
  have hlen : (((lookupKey key st.persistenceBuffers).getD ⟨[], 0⟩).messages
      ++ [m]).length
      = ((lookupKey key st.persistenceBuffers).getD ⟨[], 0⟩).messages.length + 1 := by
    simp
  constructor
  · intro hlow
    rw [if_neg (by rw [hlen]; omega)]
    exact ⟨rfl, lookupKey_putKey key _ _⟩
  · intro hhigh
    set buf : PersistenceBuffer :=
      ⟨((lookupKey key st.persistenceBuffers).getD ⟨[], 0⟩).messages ++ [m], now⟩
      with hbuf
    rw [if_pos (by rw [hlen]; omega)]
    have hbe2 : buf.messages.isEmpty = false := by
      rw [hbuf]
      simp
    have hfl : flushPendingBuffer
        { st with persistenceBuffers := putKey key buf st.persistenceBuffers } key
        = ({ st with persistenceBuffers :=
              eraseKey key (putKey key buf st.persistenceBuffers) },
           [buf.messages]) := by
      unfold flushPendingBuffer
      rw [lookupKey_putKey]
      dsimp only
      rw [if_neg (by simp [hbe2])]
    rw [hfl]
    exact ⟨rfl, lookupKey_eraseKey_none key _⟩


/-- C7: with the incremented window count below 30, the enqueue call
flushes the scope's pending buffer (one batch, when non-empty) and then
writes the current message directly as its own singleton batch, leaving
no buffer for the scope; with the count at 30 or above, the message is
appended to the scope's buffer and nothing is written until the buffer
reaches 50 messages, at which point exactly that buffer is emitted as
one batch; and in every case each message is handed to the durable
write exactly once in total (counting emitted batches plus messages
still buffered).  The hypotheses say the buffer map has no duplicate
keys and holds no empty buffers — both invariants of reachable states. -/
theorem adaptive_persistence_two_tier (st : PersistState) (m : StoredMessage)
    (now : Int)
    (hnd : (st.persistenceBuffers.map Prod.fst).Nodup)
    (hne : ∀ p ∈ st.persistenceBuffers, p.2.messages ≠ []) :
    ((getActivityStats st (getPersistenceKey m) m.timestamp).count + 1 < 30 →
      (enqueueMessageForPersistence st m now).2
        = (match lookupKey (getPersistenceKey m) st.persistenceBuffers with
           | some b => [b.messages]
           | none => []) ++ [[m]]
      ∧ lookupKey (getPersistenceKey m)
          (enqueueMessageForPersistence st m now).1.persistenceBuffers = none)
    ∧ (30 ≤ (getActivityStats st (getPersistenceKey m) m.timestamp).count + 1 →
      (((lookupKey (getPersistenceKey m) st.persistenceBuffers).getD
            ⟨[], 0⟩).messages.length + 1 < 50 →
        (enqueueMessageForPersistence st m now).2 = []
        ∧ lookupKey (getPersistenceKey m)
            (enqueueMessageForPersistence st m now).1.persistenceBuffers
          = some ⟨((lookupKey (getPersistenceKey m)
                st.persistenceBuffers).getD ⟨[], 0⟩).messages ++ [m], now⟩)
      ∧ (50 ≤ ((lookupKey (getPersistenceKey m) st.persistenceBuffers).getD
            ⟨[], 0⟩).messages.length + 1 →
        (enqueueMessageForPersistence st m now).2
          = [((lookupKey (getPersistenceKey m)
              st.persistenceBuffers).getD ⟨[], 0⟩).messages ++ [m]]
        ∧ lookupKey (getPersistenceKey m)
            (enqueueMessageForPersistence st m now).1.persistenceBuffers = none))
    ∧ (∀ x, writesCount (enqueueMessageForPersistence st m now).2 x
        + bufferedCount (enqueueMessageForPersistence st m now).1 x
        = bufferedCount st x + (if x = m then 1 else 0)) := by
  refine ⟨?_, ?_, fun x => enqueue_conserve st m now x hnd⟩
  · intro hc
    have hrw : enqueueMessageForPersistence st m now
        = enqueueDirect (bumpActivity st m) (getPersistenceKey m) m := by
      unfold enqueueMessageForPersistence
      dsimp only
      rw [if_pos hc]
    have hb : (bumpActivity st m).persistenceBuffers = st.persistenceBuffers := rfl
    have hspec := enqueueDirect_spec (bumpActivity st m) (getPersistenceKey m) m hne
    rw [hb] at hspec
    rw [hrw]
    exact hspec
  · intro hc
    have hrw : enqueueMessageForPersistence st m now
        = enqueueBuffer (bumpActivity st m) (getPersistenceKey m) m now := by
      unfold enqueueMessageForPersistence
      dsimp only
      rw [if_neg (by omega)]
    have hb : (bumpActivity st m).persistenceBuffers = st.persistenceBuffers := rfl
    have hspec := enqueueBuffer_spec (bumpActivity st m) (getPersistenceKey m) m now
    rw [hb] at hspec
    rw [hrw]
    exact hspec

/-- Witness for the C7 theorem at the empty state (low-activity path). -/
theorem adaptive_persistence_two_tier_witness :
    (enqueueMessageForPersistence ⟨[], []⟩ dbMsgOld 0).2 = [] ++ [[dbMsgOld]]
    ∧ lookupKey (getPersistenceKey dbMsgOld)
        (enqueueMessageForPersistence ⟨[], []⟩ dbMsgOld 0).1.persistenceBuffers
      = none :=
  (adaptive_persistence_two_tier ⟨[], []⟩ dbMsgOld 0 (by simp) (by simp)).1
    (by decide)

/-- C8: for any stream of ingested messages, after the unconditional
shutdown flush (`flushAllBuffers`, registered on `dispose`) every
message has been handed to the durable-store write exactly once: per
message, the number of occurrences among the batches emitted during
ingestion plus those emitted by the shutdown flush equals its number of
occurrences in the ingested stream — nothing is dropped or duplicated
on graceful exit. -/
theorem shutdown_flush_conservation (ms : List (StoredMessage × Int))
    (x : StoredMessage) :
    writesCount (runPersistence ⟨[], []⟩ ms).2 x
      + writesCount (flushAllBuffers (runPersistence ⟨[], []⟩ ms).1).2 x
      = (ms.map Prod.fst).count x := by
  have hnd0 : ((PersistState.mk [] []).persistenceBuffers.map Prod.fst).Nodup := by
    simp
  have h1 := runPersistence_conserve ms ⟨[], []⟩ x hnd0
  have hndr := runPersistence_nodup ms ⟨[], []⟩ hnd0
  have h2 := flushKeys_conserve
    ((runPersistence ⟨[], []⟩ ms).1.persistenceBuffers.map Prod.fst)
    (runPersistence ⟨[], []⟩ ms).1 x hndr
  have h3 := flushKeys_empties
    ((runPersistence ⟨[], []⟩ ms).1.persistenceBuffers.map Prod.fst)
    (runPersistence ⟨[], []⟩ ms).1 x hndr
    (fun p hp _ => List.mem_map_of_mem Prod.fst hp)
  have h0 : bufferedCount ⟨[], []⟩ x = 0 := rfl
  show writesCount (runPersistence ⟨[], []⟩ ms).2 x
      + writesCount (flushKeys
        ((runPersistence ⟨[], []⟩ ms).1.persistenceBuffers.map Prod.fst)
        (runPersistence ⟨[], []⟩ ms).1).2 x
      = (ms.map Prod.fst).count x
  omega
